import Mathlib

/-!
Shallow embedding of the probing-and-aggregation core of
offensive-vk/latency-visualizer (src/main.go).

Modelling conventions:
* Go `time.Duration` is an int64 nanosecond count; we model it as `Int`.
* Go `time.Time` instants are modelled as abstract integer timestamps.
* Go `float64` arithmetic on `PacketLoss` is modelled as exact rational
  arithmetic (`ℚ`); the operands `sent`, `received` are small integers,
  exactly representable in float64, and the properties stated here
  (value ranges, equalities with the defining formula) are insensitive
  to the final rounding of the division.
* The network is modelled as a stream of environment events: what the
  probe loop observed at each iteration (send error, read timeout, a
  packet read before the deadline, TCP connect outcome).  The `matching`
  field of an ICMP packet event records whether the packet actually is an
  echo-reply to this process's request; `pingICMP` in src/main.go never
  inspects the packet it read (`ReadFrom` err == nil is the only test),
  so the step function below ignores that field — exactly as the source
  does.
-/

set_option linter.unusedVariables false

namespace LatVis

/-- Go `time.Duration` (int64 nanoseconds). -/
abbrev Duration := Int

/-- Go `time.Time`, abstracted to an integer timestamp. -/
abbrev Instant := Int

/-- `HostStats` from src/main.go lines 32-39 (the mutex guards the record;
the guarded fields are embedded, the lock itself has no data content). -/
structure HostStats where
  Host : String
  Latency : Duration
  PacketLoss : ℚ
  Timestamps : List Instant
  RTTs : List Duration
deriving Repr, DecidableEq

/-- The per-prober local state: `seq`, `sent`, `received` locals of
`pingICMP` / `pingTCP` (src/main.go lines 81-83, 122-123) together with
the host's `HostStats` record. -/
structure ProberState where
  seq : Nat
  sent : Nat
  received : Nat
  stats : HostStats
deriving Repr, DecidableEq

/-- What the environment did during one `pingICMP` loop iteration:
`conn.WriteTo` failed; or `conn.ReadFrom` returned an error (no packet
before the deadline); or `conn.ReadFrom` returned some packet, with
`matching` recording whether that packet really is the echo-reply to this
process's request (the code does not check). `rtt` is the elapsed time
observed at the read, `now` the wall clock right after it. -/
inductive ICMPEvent where
  | sendError : ICMPEvent
  | noPacket : ICMPEvent
  | packet (matching : Bool) (rtt : Duration) (now : Instant) : ICMPEvent
deriving Repr, DecidableEq

/-- What the environment did during one `pingTCP` loop iteration:
`net.DialTimeout` failed, or connected with observed elapsed time `rtt`
at wall clock `now`. -/
inductive TCPEvent where
  | connectError : TCPEvent
  | connectOK (rtt : Duration) (now : Instant) : TCPEvent
deriving Repr, DecidableEq

/-- One iteration of the `pingICMP` loop body, src/main.go lines 85-118.
Returns the new state and whether the iteration reached the
`time.Sleep(cfg.Interval)` at line 117 (the send-error path does
`continue` at line 102 without sleeping).

Per the source: `seq++` (line 95) happens before the send in every path;
`sent++` (line 100) happens right after `conn.WriteTo`; `received++`,
the two appends, the latency write and the loss recomputation (lines
108-114) happen only when `conn.ReadFrom` returned without error —
regardless of what packet was read. -/
def pingICMPStep (st : ProberState) : ICMPEvent → ProberState × Bool
  | .sendError =>
      ({ st with seq := st.seq + 1, sent := st.sent + 1 }, false)
  | .noPacket =>
      ({ st with seq := st.seq + 1, sent := st.sent + 1 }, true)
  | .packet _ rtt now =>
      let sent := st.sent + 1
      let received := st.received + 1
      ({ st with
          seq := st.seq + 1
          sent := sent
          received := received
          stats := { st.stats with
              RTTs := st.stats.RTTs ++ [rtt]
              Latency := rtt
              Timestamps := st.stats.Timestamps ++ [now]
              PacketLoss := ((sent : ℚ) - (received : ℚ)) / (sent : ℚ) * 100 } },
        true)

/-- One iteration of the `pingTCP` loop body, src/main.go lines 121-141.
`sent++` precedes the dial; on a successful connect the stats update
mirrors the ICMP one; `time.Sleep(cfg.Interval)` at line 139 is reached
in every path, hence the second component is always `true`. -/
def pingTCPStep (st : ProberState) : TCPEvent → ProberState × Bool
  | .connectError =>
      ({ st with sent := st.sent + 1 }, true)
  | .connectOK rtt now =>
      let sent := st.sent + 1
      let received := st.received + 1
      ({ st with
          sent := sent
          received := received
          stats := { st.stats with
              RTTs := st.stats.RTTs ++ [rtt]
              Latency := rtt
              Timestamps := st.stats.Timestamps ++ [now]
              PacketLoss := ((sent : ℚ) - (received : ℚ)) / (sent : ℚ) * 100 } },
        true)

/-- The per-record body of the `displayGraph` ticker case,
src/main.go lines 208-219: under the record's lock, if `len(s.RTTs) > 50`
reassign `s.RTTs = s.RTTs[len(s.RTTs)-50:]` (keep the most recent 50).
`Timestamps`, `Latency` and `PacketLoss` are not touched. -/
def displayTrim (s : HostStats) : HostStats :=
  if s.RTTs.length > 50 then
    { s with RTTs := s.RTTs.drop (s.RTTs.length - 50) }
  else
    s

/-- Events that touch one host's record over its lifetime: a `pingICMP`
iteration, a `pingTCP` iteration, or a `displayGraph` ticker tick. -/
inductive HostEvent where
  | icmp (ev : ICMPEvent) : HostEvent
  | tcp (ev : TCPEvent) : HostEvent
  | tick : HostEvent
deriving Repr, DecidableEq

/-- How one event transforms the prober state. -/
def stepHost (st : ProberState) : HostEvent → ProberState
  | .icmp ev => (pingICMPStep st ev).1
  | .tcp ev => (pingTCPStep st ev).1
  | .tick => { st with stats := displayTrim st.stats }

/-- `&HostStats{Host: host}` (src/main.go line 257) plus the zero-valued
loop locals: Go zero values are 0 for numbers and nil (empty) slices. -/
def initState (h : String) : ProberState :=
  { seq := 0, sent := 0, received := 0,
    stats := { Host := h, Latency := 0, PacketLoss := 0,
               Timestamps := [], RTTs := [] } }

/-- Run a trace of events from a given state. -/
def runHostFrom (st : ProberState) : List HostEvent → ProberState
  | [] => st
  | e :: tr => runHostFrom (stepHost st e) tr

/-- Run a trace of events from the freshly created record for host `h`. -/
def runHost (h : String) (tr : List HostEvent) : ProberState :=
  runHostFrom (initState h) tr

/-- Whether an event is a successful probe (one that increments
`received` and appends a sample). -/
def isSuccess : HostEvent → Bool
  | .icmp (.packet _ _ _) => true
  | .tcp (.connectOK _ _) => true
  | _ => false

/-- Number of successful probes in a trace. -/
def countSuccess : List HostEvent → Nat
  | [] => 0
  | e :: tr => (if isSuccess e then 1 else 0) + countSuccess tr

/-!
The table display, `displayLoop` (src/main.go lines 143-172): each
iteration runs `sort.Slice(stats, func(i, j) { return stats[i].Latency <
stats[j].Latency })` on the SHARED `[]*HostStats` slice — the sort is in
place, so the order it produces is the starting order of the next
iteration.  Between iterations the probers keep updating each record's
`Latency` through its pointer.

We model the shared slice as the list of host identifiers (the pointers),
and the latencies the sort observes at a given iteration as a function
from host to latency.  For slices shorter than 12 elements Go's
`sort.Slice` runs plain insertion sort, which is stable with respect to
its INPUT order; a stable comparison sort's output is uniquely determined
(sorted, with equal keys in input order), so the functional insertion
sort below is exact for such slices, and for longer slices it still
yields a sorted permutation, which is all `sort.Slice` guarantees.
-/

/-- Insert `a` into the already sorted `l`, moving it before the first
element it compares strictly below — `stats[i].Latency <
stats[j].Latency` is the Go `less` function, so `a` lands after any
element with an equal latency, as in Go's insertion sort where an
element only moves left while `less` holds. -/
def insertByLat (lat : String → Duration) (a : String) : List String → List String
  | [] => [a]
  | b :: t => if lat a < lat b then a :: b :: t else b :: insertByLat lat a t

/-- One `sort.Slice` call of `displayLoop`, observing latencies `lat`:
elements are taken in the slice's current order and each is inserted
into the sorted part built so far (imperative insertion sort as a left
fold), so equal-latency elements keep the slice's current relative
order. -/
def sortTick (lat : String → Duration) (l : List String) : List String :=
  l.foldl (fun acc a => insertByLat lat a acc) []

/-- The successive displayed orders of `displayLoop`: the shared slice
starts in host-registration order and each iteration sorts it in place
by the latencies current at that iteration. -/
def displayRun (l : List String) : List (String → Duration) → List (List String)
  | [] => []
  | lat :: rest =>
      let l' := sortTick lat l
      l' :: displayRun l' rest

/-- `saveLog` (src/main.go lines 231-248): builds
`data[s.Host] = s.RTTs` for each record — the entry is the record's
`RTTs` slice itself, not a copy. -/
def saveLog (stats : List HostStats) : List (String × List Duration) :=
  stats.map (fun s => (s.Host, s.RTTs))

/-- A trace of consecutive successful ICMP probes with the given rtts
(all at wall-clock 0; the timestamps are irrelevant to the properties
below). -/
def icmpSuccesses (l : List Duration) : List HostEvent :=
  l.map (fun r => HostEvent.icmp (.packet true r 0))

/-- The record/counter invariant of the probe loops: received never
exceeds sent and the stored loss percentage is within [0, 100]. -/
def CounterInv (st : ProberState) : Prop :=
  st.received ≤ st.sent ∧ 0 ≤ st.stats.PacketLoss ∧ st.stats.PacketLoss ≤ 100

/-- Latencies observed by the display at a first tick: host "A" at 30,
any other host at 10. -/
def latTick1 : String → Duration :=
  fun s => if s = "A" then 30 else 10

/-- Latencies observed by the display at a later tick: every host at 20
(the two hosts have become equal). -/
def latTick2 : String → Duration :=
  fun _ => 20

/-- A record holding 51 samples, as a prober leaves it after 51
successes with no display tick in between. -/
def longStats : HostStats :=
  { Host := "h", Latency := 1, PacketLoss := 0,
    Timestamps := List.replicate 51 0, RTTs := List.replicate 51 1 }

/-! Helper lemmas shared by the claim theorems below. -/

theorem runHostFrom_append (st : ProberState) (t1 t2 : List HostEvent) :
    runHostFrom st (t1 ++ t2) = runHostFrom (runHostFrom st t1) t2 := by
  induction t1 generalizing st with
  | nil => rfl
  | cons e tr ih => simp only [List.cons_append, runHostFrom]; exact ih _

theorem displayTrim_host (s : HostStats) : (displayTrim s).Host = s.Host := by
  unfold displayTrim; split <;> rfl

theorem displayTrim_latency (s : HostStats) : (displayTrim s).Latency = s.Latency := by
  unfold displayTrim; split <;> rfl

theorem displayTrim_loss (s : HostStats) : (displayTrim s).PacketLoss = s.PacketLoss := by
  unfold displayTrim; split <;> rfl

theorem displayTrim_timestamps (s : HostStats) :
    (displayTrim s).Timestamps = s.Timestamps := by
  unfold displayTrim; split <;> rfl

theorem displayTrim_rtts (s : HostStats) :
    (displayTrim s).RTTs = s.RTTs.drop (s.RTTs.length - 50) := by
  unfold displayTrim
  split
  · rfl
  · rename_i hc
    have h0 : s.RTTs.length - 50 = 0 := by omega
    rw [h0, List.drop_zero]

theorem stepHost_ts_len (st : ProberState) (e : HostEvent) :
    (stepHost st e).stats.Timestamps.length
      = st.stats.Timestamps.length + (if isSuccess e then 1 else 0) := by
  cases e with
  | icmp ev => cases ev <;> simp [stepHost, pingICMPStep, isSuccess]
  | tcp ev => cases ev <;> simp [stepHost, pingTCPStep, isSuccess]
  | tick => simp [stepHost, isSuccess, displayTrim_timestamps]

theorem runHostFrom_ts_len (tr : List HostEvent) : ∀ st : ProberState,
    (runHostFrom st tr).stats.Timestamps.length
      = st.stats.Timestamps.length + countSuccess tr := by
  induction tr with
  | nil => intro st; simp [runHostFrom, countSuccess]
  | cons e tr ih =>
      intro st
      have h1 : runHostFrom st (e :: tr) = runHostFrom (stepHost st e) tr := rfl
      rw [h1, ih, stepHost_ts_len]
      simp [countSuccess]
      omega

theorem runHostFrom_icmpSuccesses_rtts (l : List Duration) : ∀ st : ProberState,
    (runHostFrom st (icmpSuccesses l)).stats.RTTs = st.stats.RTTs ++ l := by
  induction l with
  | nil => intro st; simp [icmpSuccesses, runHostFrom]
  | cons r l ih =>
      intro st
      have h1 : icmpSuccesses (r :: l)
          = HostEvent.icmp (.packet true r 0) :: icmpSuccesses l := rfl
      rw [h1]
      have h2 : runHostFrom st (HostEvent.icmp (.packet true r 0) :: icmpSuccesses l)
          = runHostFrom (stepHost st (HostEvent.icmp (.packet true r 0))) (icmpSuccesses l) := rfl
      rw [h2, ih]
      simp [stepHost, pingICMPStep]

theorem countSuccess_append (t1 t2 : List HostEvent) :
    countSuccess (t1 ++ t2) = countSuccess t1 + countSuccess t2 := by
  induction t1 with
  | nil => simp [countSuccess]
  | cons e tr ih => simp [countSuccess, ih]; omega

theorem countSuccess_icmpSuccesses (l : List Duration) :
    countSuccess (icmpSuccesses l) = l.length := by
  induction l with
  | nil => rfl
  | cons r l ih =>
      have h1 : icmpSuccesses (r :: l)
          = HostEvent.icmp (.packet true r 0) :: icmpSuccesses l := rfl
      rw [h1]
      simp [countSuccess, isSuccess, ih]
      omega

theorem loss_formula_bounds (s r : Nat) (h : r ≤ s) :
    0 ≤ (((s : ℚ) + 1) - ((r : ℚ) + 1)) / ((s : ℚ) + 1) * 100 ∧
    (((s : ℚ) + 1) - ((r : ℚ) + 1)) / ((s : ℚ) + 1) * 100 ≤ 100 := by
  have hrs : (r : ℚ) ≤ (s : ℚ) := by exact_mod_cast h
  have hpos : (0 : ℚ) < (s : ℚ) + 1 := by positivity
  constructor
  · apply mul_nonneg
    · exact div_nonneg (by linarith) (by linarith)
    · norm_num
  · have hr0 : (0 : ℚ) ≤ (r : ℚ) := by positivity
    have h1 : (((s : ℚ) + 1) - ((r : ℚ) + 1)) / ((s : ℚ) + 1) ≤ 1 := by
      rw [div_le_one hpos]
      linarith
    calc (((s : ℚ) + 1) - ((r : ℚ) + 1)) / ((s : ℚ) + 1) * 100
        ≤ 1 * 100 := mul_le_mul_of_nonneg_right h1 (by norm_num)
      _ = 100 := by norm_num

theorem counterInv_step (st : ProberState) (e : HostEvent) (h : CounterInv st) :
    CounterInv (stepHost st e) := by
  obtain ⟨h1, h2, h3⟩ := h
  cases e with
  | icmp ev =>
      cases ev with
      | sendError =>
          exact ⟨by simp [stepHost, pingICMPStep]; omega,
                 by simpa [stepHost, pingICMPStep] using h2,
                 by simpa [stepHost, pingICMPStep] using h3⟩
      | noPacket =>
          exact ⟨by simp [stepHost, pingICMPStep]; omega,
                 by simpa [stepHost, pingICMPStep] using h2,
                 by simpa [stepHost, pingICMPStep] using h3⟩
      | packet m rtt now =>
          refine ⟨by simp [stepHost, pingICMPStep]; omega, ?_, ?_⟩
          · simp only [stepHost, pingICMPStep]
            push_cast
            exact (loss_formula_bounds st.sent st.received h1).1
          · simp only [stepHost, pingICMPStep]
            push_cast
            exact (loss_formula_bounds st.sent st.received h1).2
  | tcp ev =>
      cases ev with
      | connectError =>
          exact ⟨by simp [stepHost, pingTCPStep]; omega,
                 by simpa [stepHost, pingTCPStep] using h2,
                 by simpa [stepHost, pingTCPStep] using h3⟩
      | connectOK rtt now =>
          refine ⟨by simp [stepHost, pingTCPStep]; omega, ?_, ?_⟩
          · simp only [stepHost, pingTCPStep]
            push_cast
            exact (loss_formula_bounds st.sent st.received h1).1
          · simp only [stepHost, pingTCPStep]
            push_cast
            exact (loss_formula_bounds st.sent st.received h1).2
  | tick =>
      exact ⟨h1, by simpa [stepHost, displayTrim_loss] using h2,
             by simpa [stepHost, displayTrim_loss] using h3⟩

theorem counterInv_run (tr : List HostEvent) : ∀ st : ProberState,
    CounterInv st → CounterInv (runHostFrom st tr) := by
  induction tr with
  | nil => intro st h; exact h
  | cons e tr ih => intro st h; exact ih _ (counterInv_step st e h)

theorem counterInv_init (h : String) : CounterInv (initState h) := by
  refine ⟨Nat.le_refl 0, ?_, ?_⟩ <;> norm_num [initState]

theorem insertByLat_perm (lat : String → Duration) (a : String) :
    ∀ l : List String, (insertByLat lat a l).Perm (a :: l) := by
  intro l
  induction l with
  | nil => exact List.Perm.refl _
  | cons b t ih =>
      rw [show insertByLat lat a (b :: t)
            = if lat a < lat b then a :: b :: t else b :: insertByLat lat a t from rfl]
      by_cases hc : lat a < lat b
      · rw [if_pos hc]
      · rw [if_neg hc]
        exact (ih.cons b).trans (List.Perm.swap a b t)

theorem sortTick_foldl_perm (lat : String → Duration) :
    ∀ l acc : List String,
      (l.foldl (fun acc a => insertByLat lat a acc) acc).Perm (acc ++ l) := by
  intro l
  induction l with
  | nil => intro acc; simp
  | cons a t ih =>
      intro acc
      have h1 := ih (insertByLat lat a acc)
      have h2 : (insertByLat lat a acc ++ t).Perm ((a :: acc) ++ t) :=
        (insertByLat_perm lat a acc).append_right t
      have h3 : ((a :: acc) ++ t).Perm (acc ++ a :: t) := by
        simp only [List.cons_append]
        exact List.perm_middle.symm
      exact (h1.trans h2).trans h3

theorem sortTick_perm_all (lat : String → Duration) (l : List String) :
    (sortTick lat l).Perm l := by
  have h := sortTick_foldl_perm lat l []
  simpa [sortTick] using h

theorem insertByLat_sorted (lat : String → Duration) (a : String) :
    ∀ l : List String, l.Sorted (fun x y => lat x ≤ lat y) →
      (insertByLat lat a l).Sorted (fun x y => lat x ≤ lat y) := by
  intro l
  induction l with
  | nil => intro _; simp [insertByLat]
  | cons b t ih =>
      intro hs
      rw [List.sorted_cons] at hs
      obtain ⟨hb, ht⟩ := hs
      rw [show insertByLat lat a (b :: t)
            = if lat a < lat b then a :: b :: t else b :: insertByLat lat a t from rfl]
      by_cases hc : lat a < lat b
      · rw [if_pos hc, List.sorted_cons]
        refine ⟨?_, ?_⟩
        · intro x hx
          rcases List.mem_cons.mp hx with hxa | hxt
          · subst hxa; exact le_of_lt hc
          · exact (le_of_lt hc).trans (hb x hxt)
        · rw [List.sorted_cons]; exact ⟨hb, ht⟩
      · rw [if_neg hc, List.sorted_cons]
        refine ⟨?_, ih ht⟩
        intro x hx
        have hmem := (insertByLat_perm lat a t).mem_iff.mp hx
        rcases List.mem_cons.mp hmem with hxa | hxt
        · subst hxa; exact le_of_not_lt hc
        · exact hb x hxt

theorem sortTick_foldl_sorted (lat : String → Duration) :
    ∀ l acc : List String, acc.Sorted (fun x y => lat x ≤ lat y) →
      (l.foldl (fun acc a => insertByLat lat a acc) acc).Sorted
        (fun x y => lat x ≤ lat y) := by
  intro l
  induction l with
  | nil => intro acc h; simpa using h
  | cons a t ih =>
      intro acc h
      exact ih (insertByLat lat a acc) (insertByLat_sorted lat a acc h)

theorem sortTick_sorted_all (lat : String → Duration) (l : List String) :
    (sortTick lat l).Sorted (fun x y => lat x ≤ lat y) := by
  have h := sortTick_foldl_sorted lat l [] (by simp)
  simpa [sortTick] using h

/-! The claim theorems. -/

/-- Claim C1, counterexample: after one success followed by one failed
attempt, `sent` is 2 and `received` is 1, so the claimed formula yields
50, but the stored `PacketLoss` is still 0 — the code recomputes the
loss only inside the success branch, not after every attempt. -/
theorem C1_counterexample :
    (runHost "h" [.icmp (.packet true 10 100), .icmp .noPacket]).sent = 2 ∧
    (runHost "h" [.icmp (.packet true 10 100), .icmp .noPacket]).received = 1 ∧
    (runHost "h" [.icmp (.packet true 10 100), .icmp .noPacket]).stats.PacketLoss = 0 ∧
    ((2 : ℚ) - 1) / 2 * 100 = 50 := by
  refine ⟨rfl, rfl, ?_, by norm_num⟩
  norm_num [runHost, runHostFrom, stepHost, pingICMPStep, initState]

/-- Claim C1 (amended): `packetLossPercent` starts at 0 (so it is 0 while
`sentCount` is 0) and is recomputed as `(sent - received) / sent * 100`
only after a successful probe attempt; after a failed attempt (send
error, read timeout, or connect error) it keeps its previous value. -/
theorem C1_loss_update (h : String) (st : ProberState) (m : Bool)
    (rtt : Duration) (now : Instant) :
    (initState h).stats.PacketLoss = 0 ∧
    (pingICMPStep st (.packet m rtt now)).1.stats.PacketLoss
      = (((st.sent : ℚ) + 1) - ((st.received : ℚ) + 1)) / ((st.sent : ℚ) + 1) * 100 ∧
    (pingICMPStep st .noPacket).1.stats.PacketLoss = st.stats.PacketLoss ∧
    (pingICMPStep st .sendError).1.stats.PacketLoss = st.stats.PacketLoss ∧
    (pingTCPStep st (.connectOK rtt now)).1.stats.PacketLoss
      = (((st.sent : ℚ) + 1) - ((st.received : ℚ) + 1)) / ((st.sent : ℚ) + 1) * 100 ∧
    (pingTCPStep st .connectError).1.stats.PacketLoss = st.stats.PacketLoss := by
  refine ⟨rfl, ?_, rfl, rfl, ?_, rfl⟩ <;>
    · simp only [pingICMPStep, pingTCPStep]
      push_cast
      ring

/-- Claim C2, counterexample: after 51 consecutive successful probes and
no display tick, the record's sample history holds 51 entries — the
prober appends without bound, so the history is not capped at 50 at
every point of the record's lifetime. -/
theorem C2_counterexample :
    (runHost "h" (icmpSuccesses (List.replicate 51 1))).stats.RTTs.length = 51 := by
  have h1 := runHostFrom_icmpSuccesses_rtts (List.replicate 51 1) (initState "h")
  show (runHostFrom (initState "h") (icmpSuccesses (List.replicate 51 1))).stats.RTTs.length = 51
  rw [h1]
  simp [initState]

/-- Claim C2 (amended): successful probes append to the history without
bound; it is the graph display that, once per render tick, trims `RTTs`
to the most recent 50 entries. Hence after any run of successes followed
by a display tick the history is the last 50 samples in order (all of
them when there are at most 50) — in particular, 60 successes followed
by a tick leave exactly samples 11 through 60 — while between ticks the
history may exceed 50. -/
theorem C2_trim_on_tick (h : String) (l : List Duration) :
    (runHost h (icmpSuccesses l ++ [.tick])).stats.RTTs = l.drop (l.length - 50) ∧
    (runHost h (icmpSuccesses l ++ [.tick])).stats.RTTs.length = min l.length 50 := by
  have h1 : runHost h (icmpSuccesses l ++ [HostEvent.tick])
      = stepHost (runHostFrom (initState h) (icmpSuccesses l)) HostEvent.tick := by
    unfold runHost
    rw [runHostFrom_append]
    rfl
  have h2 := runHostFrom_icmpSuccesses_rtts l (initState h)
  have h3 : (runHostFrom (initState h) (icmpSuccesses l)).stats.RTTs = l := by
    rw [h2]; simp [initState]
  constructor
  · rw [h1]
    show (displayTrim (runHostFrom (initState h) (icmpSuccesses l)).stats).RTTs
        = l.drop (l.length - 50)
    rw [displayTrim_rtts, h3]
  · rw [h1]
    show (displayTrim (runHostFrom (initState h) (icmpSuccesses l)).stats).RTTs.length
        = min l.length 50
    rw [displayTrim_rtts, h3]
    simp only [List.length_drop]
    omega

/-- Claim C3, counterexample: a packet that is NOT a matching echo-reply
(`matching = false`), read before the deadline, is nevertheless counted
as received and its timing appended as a sample — `pingICMP` only tests
that `conn.ReadFrom` returned without error and never parses or matches
the packet. -/
theorem C3_counterexample :
    (pingICMPStep (initState "h") (ICMPEvent.packet false 7 3)).1.received = 1 ∧
    (pingICMPStep (initState "h") (ICMPEvent.packet false 7 3)).1.stats.RTTs = [7] ∧
    (pingICMPStep (initState "h") (ICMPEvent.packet false 7 3)).1.stats.Latency = 7 :=
  ⟨rfl, rfl, rfl⟩

/-- Claim C3 (amended): in ICMP mode an attempt is counted as received
(with an appended sample) whenever ANY packet is read without error
before the deadline, whether or not it is a matching echo-reply to this
process's request; an absent reply (read timeout) or a send error counts
as loss. -/
theorem C3_any_packet_counts (st : ProberState) (m : Bool)
    (rtt : Duration) (now : Instant) :
    (pingICMPStep st (.packet m rtt now)).1.received = st.received + 1 ∧
    (pingICMPStep st (.packet m rtt now)).1.stats.RTTs = st.stats.RTTs ++ [rtt] ∧
    (pingICMPStep st .noPacket).1.received = st.received ∧
    (pingICMPStep st .noPacket).1.stats.RTTs = st.stats.RTTs ∧
    (pingICMPStep st .sendError).1.received = st.received ∧
    (pingICMPStep st .sendError).1.stats.RTTs = st.stats.RTTs :=
  ⟨rfl, rfl, rfl, rfl, rfl, rfl⟩

/-- Claim C4, counterexample: hosts are registered in order A, B. At the
first display iteration A has latency 30 and B has 10, so the shared
slice is reordered in place to B, A. At the second iteration both
latencies are equal (20), yet the displayed order is still B, A — the
tie is NOT presented in the original registration order A, B, because
the sort starts from the previous iteration's order, not from the
registration order. -/
theorem C4_counterexample :
    displayRun ["A", "B"] [latTick1, latTick2] = [["B", "A"], ["B", "A"]] ∧
    latTick2 "A" = latTick2 "B" := by
  exact ⟨by decide, rfl⟩

/-- Claim C4 (amended): each display iteration presents the host list
sorted ascending by the latencies current at that iteration (a
permutation of the hosts); but the sort is performed in place on the
shared slice, so equal-latency hosts appear in the order left by the
previous iteration's sort, not in the original registration order. -/
theorem C4_sorted_each_tick (lat : String → Duration) (l : List String) :
    (sortTick lat l).Perm l ∧
    (sortTick lat l).Sorted (fun a b => lat a ≤ lat b) :=
  ⟨sortTick_perm_all lat l, sortTick_sorted_all lat l⟩

/-- Claim C5, counterexample: the graph display is not a pure reader —
on a record holding 51 samples, its per-record tick body changes the
record itself (trimming `RTTs` from 51 to 50 entries under the lock),
so the display mutates the host record. -/
theorem C5_counterexample :
    (displayTrim longStats).RTTs.length = 50 ∧
    longStats.RTTs.length = 51 ∧
    displayTrim longStats ≠ longStats := by
  have h2 : (displayTrim longStats).RTTs.length = 50 := by
    rw [displayTrim_rtts]
    simp [longStats]
  have h3 : longStats.RTTs.length = 51 := by simp [longStats]
  refine ⟨h2, h3, ?_⟩
  intro hEq
  rw [hEq, h3] at h2
  omega

/-- Claim C5 (amended): the shutdown logger and the table display only
copy fields out under the lock, but the graph display also mutates the
record under the lock: it trims `RTTs` to the most recent 50 entries
(leaving `Host`, `Latency`, `PacketLoss` and `Timestamps` unchanged);
and the logger's output entry for a host is the record's `RTTs`
sequence itself. -/
theorem C5_display_mutates (s : HostStats) :
    (displayTrim s).Host = s.Host ∧
    (displayTrim s).Latency = s.Latency ∧
    (displayTrim s).PacketLoss = s.PacketLoss ∧
    (displayTrim s).Timestamps = s.Timestamps ∧
    (displayTrim s).RTTs = s.RTTs.drop (s.RTTs.length - 50) ∧
    saveLog [s] = [(s.Host, s.RTTs)] :=
  ⟨displayTrim_host s, displayTrim_latency s, displayTrim_loss s,
   displayTrim_timestamps s, displayTrim_rtts s, rfl⟩

/-- Claim C6: after any successful probe (ICMP or TCP) `Latency` equals
the rtt of the sample just appended, which is the last element of the
history; and no failed attempt (send error, read timeout, connect
error) changes `Latency` — it retains the last successful value. -/
theorem C6_latency_last_success (st : ProberState) (m : Bool)
    (rtt : Duration) (now : Instant) :
    (pingICMPStep st (.packet m rtt now)).1.stats.Latency = rtt ∧
    (pingICMPStep st (.packet m rtt now)).1.stats.RTTs.getLast? = some rtt ∧
    (pingTCPStep st (.connectOK rtt now)).1.stats.Latency = rtt ∧
    (pingTCPStep st (.connectOK rtt now)).1.stats.RTTs.getLast? = some rtt ∧
    (pingICMPStep st .noPacket).1.stats.Latency = st.stats.Latency ∧
    (pingICMPStep st .sendError).1.stats.Latency = st.stats.Latency ∧
    (pingTCPStep st .connectError).1.stats.Latency = st.stats.Latency := by
  refine ⟨rfl, ?_, rfl, ?_, rfl, rfl, rfl⟩ <;>
    simp [pingICMPStep, pingTCPStep]

/-- Claim C7: at every point of any interleaving of probe iterations and
display ticks, `received ≤ sent` and the stored `PacketLoss` lies in
[0, 100]; moreover each step leaves both counters no smaller than
before (they are monotonically non-decreasing). -/
theorem C7_counters_invariant (h : String) (tr : List HostEvent)
    (st : ProberState) (e : HostEvent) :
    (runHost h tr).received ≤ (runHost h tr).sent ∧
    0 ≤ (runHost h tr).stats.PacketLoss ∧
    (runHost h tr).stats.PacketLoss ≤ 100 ∧
    st.sent ≤ (stepHost st e).sent ∧
    st.received ≤ (stepHost st e).received := by
  have hinv := counterInv_run tr (initState h) (counterInv_init h)
  have hmono : st.sent ≤ (stepHost st e).sent ∧
      st.received ≤ (stepHost st e).received := by
    cases e with
    | icmp ev =>
        cases ev <;> constructor <;> simp [stepHost, pingICMPStep]
    | tcp ev =>
        cases ev <;> constructor <;> simp [stepHost, pingTCPStep]
    | tick => constructor <;> simp [stepHost]
  exact ⟨hinv.1, hinv.2.1, hinv.2.2, hmono.1, hmono.2⟩

/-- Claim C8, counterexample: the ICMP send-error path does `continue`
before the iteration's `time.Sleep(cfg.Interval)` is reached, so an
iteration whose send fails does NOT end by sleeping for the interval. -/
theorem C8_counterexample :
    (pingICMPStep (initState "h") ICMPEvent.sendError).2 = false := rfl

/-- Claim C8 (amended): every TCP-mode iteration, and every ICMP-mode
iteration whose send succeeds (whether or not a reply arrives), ends by
sleeping for the configured interval; the one exception is the ICMP
send-error path, which skips the sleep and retries immediately. -/
theorem C8_sleep_paths (st : ProberState) (m : Bool)
    (rtt : Duration) (now : Instant) (tv : TCPEvent) :
    (pingICMPStep st (.packet m rtt now)).2 = true ∧
    (pingICMPStep st .noPacket).2 = true ∧
    (pingICMPStep st .sendError).2 = false ∧
    (pingTCPStep st tv).2 = true := by
  refine ⟨rfl, rfl, rfl, ?_⟩
  cases tv <;> rfl

/-- Claim C10: `Timestamps` is append-only — every operation on the
record (probe iterations of either mode and display ticks) extends it on
the right or leaves it unchanged; after any trace its length equals the
number of successful probes in the trace; and concretely, after 51
successes and one graph tick `Timestamps` holds 51 entries while `RTTs`
was trimmed to 50, so `Timestamps` is strictly longer than `RTTs`. -/
theorem C10_timestamps_append_only (h : String) (tr : List HostEvent)
    (st : ProberState) (e : HostEvent) :
    (∃ t, (stepHost st e).stats.Timestamps = st.stats.Timestamps ++ t) ∧
    (runHost h tr).stats.Timestamps.length = countSuccess tr ∧
    (runHost h (icmpSuccesses (List.replicate 51 1) ++ [.tick])).stats.Timestamps.length
      = 51 ∧
    (runHost h (icmpSuccesses (List.replicate 51 1) ++ [.tick])).stats.RTTs.length
      = 50 := by
  refine ⟨?_, ?_, ?_, ?_⟩
  · cases e with
    | icmp ev =>
        cases ev with
        | sendError => exact ⟨[], by simp [stepHost, pingICMPStep]⟩
        | noPacket => exact ⟨[], by simp [stepHost, pingICMPStep]⟩
        | packet m rtt now => exact ⟨[now], by simp [stepHost, pingICMPStep]⟩
    | tcp ev =>
        cases ev with
        | connectError => exact ⟨[], by simp [stepHost, pingTCPStep]⟩
        | connectOK rtt now => exact ⟨[now], by simp [stepHost, pingTCPStep]⟩
    | tick => exact ⟨[], by simp [stepHost, displayTrim_timestamps]⟩
  · have h1 := runHostFrom_ts_len tr (initState h)
    simpa [runHost, initState] using h1
  · have h1 := runHostFrom_ts_len
      (icmpSuccesses (List.replicate 51 1) ++ [HostEvent.tick]) (initState h)
    rw [countSuccess_append, countSuccess_icmpSuccesses] at h1
    simpa [runHost, initState, countSuccess, isSuccess] using h1
  · have h1 : runHost h (icmpSuccesses (List.replicate 51 1) ++ [HostEvent.tick])
        = stepHost (runHostFrom (initState h) (icmpSuccesses (List.replicate 51 1)))
            HostEvent.tick := by
      unfold runHost
      rw [runHostFrom_append]
      rfl
    have h3 : (runHostFrom (initState h) (icmpSuccesses (List.replicate 51 1))).stats.RTTs
        = List.replicate 51 1 := by
      rw [runHostFrom_icmpSuccesses_rtts]
      simp [initState]
    rw [h1]
    show (displayTrim
        (runHostFrom (initState h) (icmpSuccesses (List.replicate 51 1))).stats).RTTs.length
      = 50
    rw [displayTrim_rtts, h3]
    simp

end LatVis
